import Mathlib

/-!
Shallow embedding of the interpreter in `spi_updated.py`: a lexer, a
recursive-descent parser producing an AST, and a tree-walking evaluator over a
mutable name-to-value environment.  Machine integers do not overflow in the
source language (Python), so numbers are modelled as `ℚ` (Python 3 `/` is true
division, producing non-integral results).  Fallible operations return
`Except Err`; loops and recursive descent are driven by explicit fuel so that
every definition is structurally recursive and kernel-computable.
-/

namespace Spi

/-- Error taxonomy of the pipeline.  `invalidCharacter` is the lexer's
`Exception('Invalid character')`, `invalidSyntax` the parser's
`Exception('Invalid syntax')`, `nameError` the evaluator's
`NameError(repr(var_name))` (it carries the identifier), `zeroDivision` the
native `ZeroDivisionError` raised by `/`, `typeError` the native `TypeError`
raised when arithmetic meets a `None` operand, `attributeError` the native
failure of `node.left.value` on a node without that attribute, `indexError`
the native failure of `text[0]` on an empty string, and `noFuel` is an
artifact of the fuel-based embedding (never produced while fuel remains). -/
inductive Err
  | invalidCharacter
  | invalidSyntax
  | nameError (name : String)
  | zeroDivision
  | typeError
  | attributeError
  | indexError
  | noFuel
  deriving DecidableEq, Repr

/-- Token kinds, mirroring the module-level constants `INTEGER, PLUS, MINUS,
MUL, DIV, LPAREN, RPAREN, EOF, BEGIN, END, ASSIGN, SEMI, DOT, ID`. -/
inductive TokenType
  | INTEGER
  | PLUS
  | MINUS
  | MUL
  | DIV
  | LPAREN
  | RPAREN
  | EOF
  | BEGIN
  | END
  | ASSIGN
  | SEMI
  | DOT
  | ID
  deriving DecidableEq, Repr

/-- Tokens.  The source's `Token(type, value)` pairs a type tag with a value
that is determined by the tag except for `INTEGER` (the parsed integer) and
`ID` (the identifier text); we merge the pair into one tagged value carrying a
literal exactly where the value is not determined by the tag. -/
inductive Token
  | integer (n : Nat)
  | plus
  | minus
  | mul
  | div
  | lparen
  | rparen
  | eof
  | kwBegin
  | kwEnd
  | assign
  | semi
  | dot
  | id (s : String)
  deriving DecidableEq, Repr

/-- `token.type`, the tag the parser's `eat` compares against. -/
def Token.type : Token → TokenType
  | .integer _ => .INTEGER
  | .plus => .PLUS
  | .minus => .MINUS
  | .mul => .MUL
  | .div => .DIV
  | .lparen => .LPAREN
  | .rparen => .RPAREN
  | .eof => .EOF
  | .kwBegin => .BEGIN
  | .kwEnd => .END
  | .assign => .ASSIGN
  | .semi => .SEMI
  | .dot => .DOT
  | .id _ => .ID

/-- Lexer state: the input `text` and the cursor `self.pos`.  The source also
stores `self.current_char`, but `__init__` and `advance` (the only writers)
keep it equal to `text[pos]` when `pos <= len(text) - 1` and `None`
otherwise, so we derive it (`Lexer.currentChar`) instead of storing it. -/
structure Lexer where
  text : List Char
  pos : Nat
  deriving DecidableEq, Repr

/-- The character under the cursor: `None` once `pos > len(text) - 1`. -/
def Lexer.currentChar (l : Lexer) : Option Char :=
  l.text.get? l.pos

/-- `advance`: move the cursor one character forward (`current_char` is
derived, so only `pos` changes). -/
def Lexer.advance (l : Lexer) : Lexer :=
  { l with pos := l.pos + 1 }

/-- `peek`: the character after the cursor, without advancing. -/
def Lexer.peek (l : Lexer) : Option Char :=
  l.text.get? (l.pos + 1)

/-- `skip_whitespace`: advance while the current character is whitespace.
The fuel argument only bounds the loop; `text.length + 1` is always enough
because each iteration advances `pos` and the loop stops at end of input. -/
def skipWhitespace : Nat → Lexer → Lexer
  | 0, l => l
  | fuel + 1, l =>
    match l.currentChar with
    | some c => if c.isWhitespace then skipWhitespace fuel l.advance else l
    | none => l

/-- Loop of `integer`: consume a maximal run of digits.  The source
accumulates the digit characters into a string and applies `int`; we fold the
digits into the number directly, which yields the same value. -/
def lexIntegerLoop : Nat → Lexer → Nat → Nat × Lexer
  | 0, l, acc => (acc, l)
  | fuel + 1, l, acc =>
    match l.currentChar with
    | some c =>
      if c.isDigit then lexIntegerLoop fuel l.advance (acc * 10 + (c.toNat - 48))
      else (acc, l)
    | none => (acc, l)

/-- `integer`: return a (multidigit) integer consumed from the input. -/
def lexInteger (l : Lexer) : Token × Lexer :=
  let (n, l') := lexIntegerLoop (l.text.length + 1) l 0
  (Token.integer n, l')

/-- Loop of `_id`: consume a maximal run of alphanumeric characters. -/
def lexIdLoop : Nat → Lexer → String → String × Lexer
  | 0, l, acc => (acc, l)
  | fuel + 1, l, acc =>
    match l.currentChar with
    | some c =>
      if c.isAlphanum then lexIdLoop fuel l.advance (acc.push c)
      else (acc, l)
    | none => (acc, l)

/-- `_id`: handle identifiers and reserved keywords, resolving the consumed
run against `RESERVED_KEYWORDS = {BEGIN, END}` (case-sensitive). -/
def lexId (l : Lexer) : Token × Lexer :=
  let (s, l') := lexIdLoop (l.text.length + 1) l ""
  if s = "BEGIN" then (Token.kwBegin, l')
  else if s = "END" then (Token.kwEnd, l')
  else (Token.id s, l')

/-- `get_next_token`.  The source's `while` loop re-enters only through its
whitespace branch (whitespace matches none of the earlier checks), so it is
modelled by skipping whitespace first and then dispatching once, in the
source's branch order.  A `:` not followed by `=` matches no later branch and
falls through to `error()`, exactly as in the source. -/
def getNextToken (l : Lexer) : Except Err (Token × Lexer) :=
  let l := skipWhitespace (l.text.length + 1) l
  match l.currentChar with
  | none => .ok (Token.eof, l)
  | some c =>
    if c.isAlpha then .ok (lexId l)
    else if c = ':' ∧ l.peek = some '=' then .ok (Token.assign, l.advance.advance)
    else if c = ';' then .ok (Token.semi, l.advance)
    else if c = '.' then .ok (Token.dot, l.advance)
    else if c.isDigit then .ok (lexInteger l)
    else if c = '+' then .ok (Token.plus, l.advance)
    else if c = '-' then .ok (Token.minus, l.advance)
    else if c = '*' then .ok (Token.mul, l.advance)
    else if c = '/' then .ok (Token.div, l.advance)
    else if c = '(' then .ok (Token.lparen, l.advance)
    else if c = ')' then .ok (Token.rparen, l.advance)
    else .error .invalidCharacter

/-- `Lexer.__init__`: stores the text, sets `pos = 0`, and reads
`self.text[self.pos]` unguarded — on the empty string that native indexing
fails with an index-out-of-range error before a lexer exists. -/
def lexerInit (text : String) : Except Err Lexer :=
  match text.data with
  | [] => .error .indexError
  | c :: cs => .ok ⟨c :: cs, 0⟩

/-- AST node family.  Field layout mirrors the source classes: `BinOp`,
`Assign` and `UnaryOp` store the operator `Token` itself (`self.token =
self.op = op`); `Num` stores the `INTEGER` token's integer value and `Var`
the `ID` token's string value (`self.value = token.value`); `Compound` holds
its ordered `children`; `NoOp` is empty. -/
inductive AST
  | binOp (left : AST) (op : Token) (right : AST)
  | num (value : Nat)
  | compound (children : List AST)
  | assign (left : AST) (op : Token) (right : AST)
  | var (value : String)
  | noOp
  | unaryOp (op : Token) (expr : AST)
  deriving Repr

/-- Parser state: the pulled-from lexer and the single token of lookahead
(`self.current_token`).  Tokens are pulled lazily, one at a time. -/
structure Parser where
  lexer : Lexer
  currentToken : Token
  deriving Repr

/-- `Parser.__init__`: pull the first token from the lexer. -/
def parserInit (lx : Lexer) : Except Err Parser := do
  let (tok, lx') ← getNextToken lx
  .ok ⟨lx', tok⟩

/-- `eat`: if the current token has the requested type, pull the next token
from the lexer; otherwise raise `Invalid syntax`. -/
def eat (p : Parser) (t : TokenType) : Except Err Parser :=
  if p.currentToken.type = t then
    match getNextToken p.lexer with
    | .ok (tok, lx') => .ok ⟨lx', tok⟩
    | .error e => .error e
  else .error .invalidSyntax

/-- `Var(token).value`: the `ID` token's string payload.  `variable` builds
the node before `eat(ID)` runs, but `eat(ID)` rejects every non-`ID` token
before the node can escape, so only the `ID` payload is ever observed. -/
def tokenIdValue : Token → String
  | .id s => s
  | _ => ""

/-- `Num(token).value`: the `INTEGER` token's integer payload (the `factor`
rule builds `Num` only under an `INTEGER` type check). -/
def tokenIntValue : Token → Nat
  | .integer n => n
  | _ => 0

/-- `variable : ID` — builds a `Var` node from the current token. -/
def variableP (p : Parser) : Except Err (AST × Parser) :=
  match p.currentToken with
  | .id s => do
    let p' ← eat p .ID
    .ok (AST.var s, p')
  | _ => .error .invalidSyntax

/-- `empty`: an empty production, yielding `NoOp`. -/
def empty : AST :=
  AST.noOp

mutual

/-- `compound_statement : BEGIN statement_list END`. -/
def compound_statement : Nat → Parser → Except Err (AST × Parser)
  | 0, _ => .error .noFuel
  | fuel + 1, p => do
    let p ← eat p .BEGIN
    let (nodes, p) ← statement_list fuel p
    let p ← eat p .END
    .ok (AST.compound nodes, p)

/-- `statement_list : statement (SEMI statement)*`. -/
def statement_list : Nat → Parser → Except Err (List AST × Parser)
  | 0, _ => .error .noFuel
  | fuel + 1, p => do
    let (node, p) ← statement fuel p
    statement_list_while fuel [node] p

/-- The `while self.current_token.type == SEMI` loop of `statement_list`,
appending each further statement to the accumulated list. -/
def statement_list_while : Nat → List AST → Parser → Except Err (List AST × Parser)
  | 0, _, _ => .error .noFuel
  | fuel + 1, results, p =>
    if p.currentToken.type = .SEMI then do
      let p ← eat p .SEMI
      let (node, p) ← statement fuel p
      statement_list_while fuel (results ++ [node]) p
    else .ok (results, p)

/-- `statement : compound_statement | assignment_statement | empty`,
dispatching on the lookahead token's type. -/
def statement : Nat → Parser → Except Err (AST × Parser)
  | 0, _ => .error .noFuel
  | fuel + 1, p =>
    if p.currentToken.type = .BEGIN then compound_statement fuel p
    else if p.currentToken.type = .ID then assignment_statement fuel p
    else .ok (empty, p)

/-- `assignment_statement : variable ASSIGN expr`; the stored operator token
is the lookahead at the `ASSIGN` position. -/
def assignment_statement : Nat → Parser → Except Err (AST × Parser)
  | 0, _ => .error .noFuel
  | fuel + 1, p => do
    let (left, p) ← variableP p
    let token := p.currentToken
    let p ← eat p .ASSIGN
    let (right, p) ← expr fuel p
    .ok (AST.assign left token right, p)

/-- `factor : PLUS factor | MINUS factor | INTEGER | LPAREN expr RPAREN |
variable`, dispatching on the lookahead token's type and erroring when none
of the alternatives can start. -/
def factor : Nat → Parser → Except Err (AST × Parser)
  | 0, _ => .error .noFuel
  | fuel + 1, p =>
    let token := p.currentToken
    if token.type = .PLUS then do
      let p ← eat p .PLUS
      let (node, p) ← factor fuel p
      .ok (AST.unaryOp token node, p)
    else if token.type = .MINUS then do
      let p ← eat p .MINUS
      let (node, p) ← factor fuel p
      .ok (AST.unaryOp token node, p)
    else if token.type = .INTEGER then do
      let p' ← eat p .INTEGER
      .ok (AST.num (tokenIntValue token), p')
    else if token.type = .LPAREN then do
      let p ← eat p .LPAREN
      let (node, p) ← expr fuel p
      let p ← eat p .RPAREN
      .ok (node, p)
    else if token.type = .ID then variableP p
    else .error .invalidSyntax

/-- `term : factor ((MUL | DIV) factor)*`. -/
def term : Nat → Parser → Except Err (AST × Parser)
  | 0, _ => .error .noFuel
  | fuel + 1, p => do
    let (node, p) ← factor fuel p
    term_while fuel node p

/-- The `while ... in (MUL, DIV)` loop of `term`: each repetition wraps the
previously built node as the left child of a new `BinOp`. -/
def term_while : Nat → AST → Parser → Except Err (AST × Parser)
  | 0, _, _ => .error .noFuel
  | fuel + 1, node, p =>
    if p.currentToken.type = .MUL ∨ p.currentToken.type = .DIV then do
      let token := p.currentToken
      let p ← if token.type = .MUL then eat p .MUL else eat p .DIV
      let (right, p) ← factor fuel p
      term_while fuel (AST.binOp node token right) p
    else .ok (node, p)

/-- `expr : term ((PLUS | MINUS) term)*`. -/
def expr : Nat → Parser → Except Err (AST × Parser)
  | 0, _ => .error .noFuel
  | fuel + 1, p => do
    let (node, p) ← term fuel p
    expr_while fuel node p

/-- The `while ... in (PLUS, MINUS)` loop of `expr`: each repetition wraps
the previously built node as the left child of a new `BinOp`. -/
def expr_while : Nat → AST → Parser → Except Err (AST × Parser)
  | 0, _, _ => .error .noFuel
  | fuel + 1, node, p =>
    if p.currentToken.type = .PLUS ∨ p.currentToken.type = .MINUS then do
      let token := p.currentToken
      let p ← if token.type = .PLUS then eat p .PLUS else eat p .MINUS
      let (right, p) ← term fuel p
      expr_while fuel (AST.binOp node token right) p
    else .ok (node, p)

end

/-- `program : compound_statement DOT`. -/
def program (fuel : Nat) (p : Parser) : Except Err (AST × Parser) := do
  let (node, p) ← compound_statement fuel p
  let p ← eat p .DOT
  .ok (node, p)

/-- `parse`: run `program`, then require the lookahead to be `EOF` (trailing
garbage is a syntax error). -/
def parse (fuel : Nat) (p : Parser) : Except Err AST := do
  let (node, p) ← program fuel p
  if p.currentToken.type ≠ .EOF then .error .invalidSyntax
  else .ok node

/-- `GLOBAL_SCOPE`: an insertion-ordered mapping from variable name to the
value stored by the last assignment.  `visit_Assign` stores whatever
`self.visit(node.right)` returns — a number for expression nodes, `None` for
statement nodes — so entries hold `Option ℚ`. -/
abbrev Env : Type :=
  List (String × Option ℚ)

/-- `GLOBAL_SCOPE.get(name)`: `none` when the key is missing, otherwise the
stored entry. -/
def envGet : Env → String → Option (Option ℚ)
  | [], _ => none
  | (y, w) :: rest, x => if y = x then some w else envGet rest x

/-- `GLOBAL_SCOPE[name] = v`: overwrite an existing key in place (keeping
its position, as a Python dict does), otherwise append the new binding. -/
def envSet : Env → String → Option ℚ → Env
  | [], x, v => [(x, v)]
  | (y, w) :: rest, x, v =>
    if y = x then (y, v) :: rest else (y, w) :: envSet rest x v

/-- The arithmetic applied by `visit_BinOp` once both operands are numbers:
`+`, `-`, `*` are exact, and `/` is Python 3 true division, raising
`ZeroDivisionError` when the divisor is zero.  Each of the source's four
branches evaluates `left` then `right` and applies its own operator; the
caller performs that shared evaluation and this function the operator. -/
def applyBin : TokenType → ℚ → ℚ → Except Err (Option ℚ)
  | .PLUS, a, b => .ok (some (a + b))
  | .MINUS, a, b => .ok (some (a - b))
  | .MUL, a, b => .ok (some (a * b))
  | .DIV, a, b => if b = 0 then .error .zeroDivision else .ok (some (a / b))
  | _, _, _ => .ok none

/-- The operand evaluation shared by `visit_BinOp`'s four arithmetic
branches: each evaluates `left` fully, then `right`, then applies its own
operator (`applyBin`); a `None` operand makes the native arithmetic fail
with a `TypeError`. -/
def visitBinOp (v : AST → Env → Env × Except Err (Option ℚ))
    (l r : AST) (op : TokenType) (env : Env) : Env × Except Err (Option ℚ) :=
  match v l env with
  | (env1, .error e) => (env1, .error e)
  | (env1, .ok a) =>
    match v r env1 with
    | (env2, .error e) => (env2, .error e)
    | (env2, .ok b) =>
      match a, b with
      | some a, some b => (env2, applyBin op a b)
      | _, _ => (env2, .error .typeError)

/-- The operand evaluation shared by `visit_UnaryOp`'s two branches:
evaluate the operand, then return it (`PLUS`) or its negation (`MINUS`); a
`None` operand makes the native `+`/`-` fail with a `TypeError`. -/
def visitUnaryOp (v : AST → Env → Env × Except Err (Option ℚ))
    (e : AST) (op : TokenType) (env : Env) : Env × Except Err (Option ℚ) :=
  match v e env with
  | (env1, .error err) => (env1, .error err)
  | (env1, .ok (some a)) => (env1, .ok (some (if op = .PLUS then a else -a)))
  | (env1, .ok none) => (env1, .error .typeError)

/-- `visit_Compound`'s loop: visit each child in order, discarding its
result; the first exception aborts the loop, keeping the environment
mutations already applied; the loop itself produces `None`. -/
def visitSeq (v : AST → Env → Env × Except Err (Option ℚ)) :
    List AST → Env → Env × Except Err (Option ℚ)
  | [], env => (env, .ok none)
  | node :: rest, env =>
    match v node env with
    | (env1, .ok _) => visitSeq v rest env1
    | (env1, .error e) => (env1, .error e)

/-- `NodeVisitor.visit`, dispatching on the node's variant.  The result pairs
the environment after the call (exceptions leave already-applied mutations in
place) with the returned value: `some` a number for expression nodes, `none`
where the source handler returns Python `None`.
  * `visit_Num` returns `node.value`.
  * `visit_Var` reads `GLOBAL_SCOPE.get(name)` and raises
    `NameError` when that yields `None` (missing key, or a stored `None`).
  * `visit_BinOp` dispatches on `node.op.type`; each arithmetic branch
    evaluates `left` fully, then `right`, then applies the operator; an
    operator outside `{PLUS, MINUS, MUL, DIV}` matches no branch, so the
    handler returns `None` without visiting the children; a `None` operand
    makes the native arithmetic fail with a `TypeError`.
  * `visit_UnaryOp` likewise dispatches on the operator: `PLUS` returns the
    operand's value, `MINUS` its negation, anything else `None` unvisited.
  * `visit_Assign` reads `node.left.value` — the parser only ever builds
    `Var` targets; any other node shape misuses that duck-typed attribute
    access and is modelled as an attribute error — then stores the visit of
    the right-hand side (whatever it is, `None` included).
  * `visit_Compound` visits the children in order; `visit_NoOp` does
    nothing.
Fuel only bounds the recursion depth; it is an embedding artifact. -/
def visit : Nat → AST → Env → Env × Except Err (Option ℚ)
  | 0, _, env => (env, .error .noFuel)
  | fuel + 1, node, env =>
    match node with
    | .num n => (env, .ok (some (n : ℚ)))
    | .var name =>
      match (envGet env name).join with
      | none => (env, .error (.nameError name))
      | some v => (env, .ok (some v))
    | .binOp l op r =>
      match op.type with
      | .PLUS | .MINUS | .MUL | .DIV =>
        visitBinOp (fun a ev => visit fuel a ev) l r op.type env
      | _ => (env, .ok none)
    | .unaryOp op e =>
      match op.type with
      | .PLUS | .MINUS =>
        visitUnaryOp (fun a ev => visit fuel a ev) e op.type env
      | _ => (env, .ok none)
    | .assign left _ right =>
      match left with
      | .var name =>
        (match visit fuel right env with
         | (env1, .ok v) => (envSet env1 name v, .ok none)
         | (env1, .error e) => (env1, .error e))
      | _ => (env, .error .attributeError)
    | .compound children => visitSeq (fun a ev => visit fuel a ev) children env
    | .noOp => (env, .ok none)

/-- Outcome of one pipeline run: a lex/parse failure before evaluation
starts, a runtime failure (with the environment mutations already applied),
or normal completion with the final environment and the returned value. -/
inductive Outcome
  | error (e : Err)
  | evalError (env : Env) (e : Err)
  | done (env : Env) (value : Option ℚ)
  deriving DecidableEq, Repr

/-- Lex and parse a statement program: `Lexer(text)`, `Parser(lexer)`,
`parser.parse()`. -/
def runParse (fuel : Nat) (text : String) : Except Err AST := do
  let lx ← lexerInit text
  let p ← parserInit lx
  parse fuel p

/-- `Interpreter.interpret` on a fresh interpreter (`GLOBAL_SCOPE = {}`):
parse the text, then visit the tree. -/
def interpret (fuel : Nat) (text : String) : Outcome :=
  match runParse fuel text with
  | .error e => .error e
  | .ok tree =>
    match visit fuel tree [] with
    | (env, .ok v) => .done env v
    | (env, .error e) => .evalError env e

/-- Modelled from the spec: the companion expression-only dialect, absent
from `src` (the statement parser's `parse` requires `BEGIN`), "parses just
the `expr` grammar directly from `program`" and, like `parse`, fails unless
the lookahead afterwards is `EndOfInput`.  The `expr`/`term`/`factor`
productions themselves are the source's. -/
def parseExprOnly (fuel : Nat) (p : Parser) : Except Err AST := do
  let (node, p) ← expr fuel p
  if p.currentToken.type ≠ .EOF then .error .invalidSyntax
  else .ok node

/-- Lex and parse a bare arithmetic expression (expression-only dialect). -/
def runParseExpr (fuel : Nat) (text : String) : Except Err AST := do
  let lx ← lexerInit text
  let p ← parserInit lx
  parseExprOnly fuel p

/-- Evaluate a bare arithmetic expression from scratch (empty environment):
the expression-only pipeline of the spec over the source's productions and
evaluator. -/
def interpretExpr (fuel : Nat) (text : String) : Outcome :=
  match runParseExpr fuel text with
  | .error e => .error e
  | .ok tree =>
    match visit fuel tree [] with
    | (env, .ok v) => .done env v
    | (env, .error e) => .evalError env e

/-! ### Helper lemmas -/

/-- A statement sequence (`visit_Compound`'s loop) never produces a value:
when it returns normally, the returned value is `None`. -/
theorem visitSeq_ok_eq_none (v : AST → Env → Env × Except Err (Option ℚ)) :
    ∀ (ss : List AST) (env env' : Env) (r : Option ℚ),
      visitSeq v ss env = (env', .ok r) → r = none := by
  intro ss
  induction ss with
  | nil =>
    intro env env' r h
    simp only [visitSeq, Prod.mk.injEq, Except.ok.injEq] at h
    exact h.2.symm
  | cons s rest ih =>
    intro env env' r h
    simp only [visitSeq] at h
    split at h
    · exact ih _ _ _ h
    · simp at h

/-- If the operand evaluations of `visitBinOp` leave the environment
unchanged whenever they return a value, so does `visitBinOp` itself when it
returns a value. -/
theorem visitBinOp_ok_some (v : AST → Env → Env × Except Err (Option ℚ))
    (hv : ∀ n env env' a, v n env = (env', .ok (some a)) → env' = env) :
    ∀ (l r : AST) (op : TokenType) (env env' : Env) (a : ℚ),
      visitBinOp v l r op env = (env', .ok (some a)) → env' = env := by
  intro l r op env env' a h
  simp only [visitBinOp] at h
  split at h
  · simp at h
  · rename_i env1 a? heq1
    split at h
    · simp at h
    · rename_i env2 b? heq2
      split at h
      · rename_i a0 b0
        simp only [Prod.mk.injEq] at h
        exact h.1.symm.trans ((hv r env1 env2 b0 heq2).trans (hv l env env1 a0 heq1))
      · simp at h

/-- If the operand evaluation of `visitUnaryOp` leaves the environment
unchanged whenever it returns a value, so does `visitUnaryOp` itself when it
returns a value. -/
theorem visitUnaryOp_ok_some (v : AST → Env → Env × Except Err (Option ℚ))
    (hv : ∀ n env env' a, v n env = (env', .ok (some a)) → env' = env) :
    ∀ (e : AST) (op : TokenType) (env env' : Env) (a : ℚ),
      visitUnaryOp v e op env = (env', .ok (some a)) → env' = env := by
  intro e op env env' a h
  simp only [visitUnaryOp] at h
  split at h
  · simp at h
  · rename_i env1 a0 heq1
    simp only [Prod.mk.injEq] at h
    exact h.1.symm.trans (hv e env env1 a0 heq1)
  · simp at h

/-- A visit that returns a numeric value leaves the environment unchanged:
only `visit_Assign` mutates `GLOBAL_SCOPE`, and every handler that can have
run an assignment underneath returns `None` (or fails) instead of a value. -/
theorem visit_value_env_eq :
    ∀ (fuel : Nat) (n : AST) (env env' : Env) (a : ℚ),
      visit fuel n env = (env', .ok (some a)) → env' = env := by
  intro fuel
  induction fuel with
  | zero =>
    intro n env env' a h
    simp [visit] at h
  | succ fuel ih =>
    intro n env env' a h
    cases n with
    | num k =>
      simp only [visit, Prod.mk.injEq] at h
      exact h.1.symm
    | var name =>
      simp only [visit] at h
      split at h
      · simp at h
      · simp only [Prod.mk.injEq] at h
        exact h.1.symm
    | binOp l op r =>
      simp only [visit] at h
      split at h
      all_goals first
        | exact visitBinOp_ok_some _ ih l r _ env env' a h
        | simp at h
    | unaryOp op e =>
      simp only [visit] at h
      split at h
      all_goals first
        | exact visitUnaryOp_ok_some _ ih e _ env env' a h
        | simp at h
    | assign left op right =>
      simp only [visit] at h
      split at h
      · split at h
        · simp at h
        · simp at h
      · simp at h
    | compound children =>
      simp only [visit] at h
      have := visitSeq_ok_eq_none (fun a ev => visit fuel a ev) children env env' (some a) h
      simp at this
    | noOp =>
      simp [visit] at h

/-- Looking a name up right after `GLOBAL_SCOPE[name] = v` yields `v`. -/
theorem envGet_envSet_self :
    ∀ (env : Env) (x : String) (v : Option ℚ), envGet (envSet env x v) x = some v := by
  intro env x v
  induction env with
  | nil => simp [envGet, envSet]
  | cons p rest ih =>
    obtain ⟨y, w⟩ := p
    by_cases hxy : y = x
    · simp [envSet, envGet, hxy]
    · simp [envSet, envGet, hxy, ih]

/-- An assignment whose right-hand side raises propagates that error and
stores nothing: the environment is exactly the one the failing right-hand
side left behind. -/
theorem visit_assign_rhs_error (fuel : Nat) (x : String) (op : Token) (rhs : AST)
    (env env1 : Env) (e : Err) (h : visit fuel rhs env = (env1, .error e)) :
    visit (fuel + 1) (AST.assign (AST.var x) op rhs) env = (env1, .error e) := by
  simp [visit, h]

/-- Once the cursor has passed the end of the input, the derived
`current_char` is `None`. -/
theorem currentChar_none_of_exhausted (l : Lexer) (h : l.text.length ≤ l.pos) :
    l.currentChar = none :=
  List.get?_eq_none.mpr h

/-- `skip_whitespace` does nothing when `current_char` is `None`. -/
theorem skipWhitespace_of_none (fuel : Nat) (l : Lexer) (h : l.currentChar = none) :
    skipWhitespace fuel l = l := by
  cases fuel with
  | zero => rfl
  | succ n => simp [skipWhitespace, h]

/-! ### Claims -/

/-- C1: evaluating the statement program
`"BEGIN a := 2; b := 10 * a + 10 / 5; END."` against an initially empty
environment terminates with the environment mapping exactly `a` to `2` and
`b` to `22`, and returns no value. -/
theorem C1_statement_program :
    interpret 100 "BEGIN a := 2; b := 10 * a + 10 / 5; END." =
      .done [("a", some 2), ("b", some 22)] none := by
  have h : runParse 100 "BEGIN a := 2; b := 10 * a + 10 / 5; END." =
      .ok (AST.compound
        [AST.assign (AST.var "a") Token.assign (AST.num 2),
         AST.assign (AST.var "b") Token.assign
           (AST.binOp (AST.binOp (AST.num 10) Token.mul (AST.var "a")) Token.plus
             (AST.binOp (AST.num 10) Token.div (AST.num 5))),
         AST.noOp]) := by rfl
  norm_num +decide [interpret, h, visit, visitSeq, visitBinOp, Token.type, applyBin,
    envGet, envSet]

/-- C2: division is non-truncating — evaluating the bare expression
`"7 / 2"` returns `7/2 = 3.5` exactly, not the truncated integer `3`. -/
theorem C2_true_division :
    interpretExpr 100 "7 / 2" = .done [] (some (7 / 2)) ∧
    (7 / 2 : ℚ) = 3.5 ∧
    interpretExpr 100 "7 / 2" ≠ .done [] (some 3) := by
  have h : runParseExpr 100 "7 / 2" =
      .ok (AST.binOp (AST.num 7) Token.div (AST.num 2)) := by rfl
  have he : interpretExpr 100 "7 / 2" = .done [] (some (7 / 2)) := by
    norm_num [interpretExpr, h, visit, visitBinOp, Token.type, applyBin]
  refine ⟨he, by norm_num, ?_⟩
  rw [he]
  intro hc
  simp only [Outcome.done.injEq, Option.some.injEq] at hc
  norm_num at hc

/-- C3 counterexample: the claim quantifies over every `BinaryOp` division
node whose right operand evaluates to `0`, but when the left operand fails
first — here `x` is undefined — evaluation fails with that error, not with
the arithmetic error: `Var("x") / Num(0)` in the empty environment raises
the undefined-variable error although its right operand evaluates to `0`. -/
theorem C3_left_error_counterexample :
    visit 1 (AST.num 0) [] = ([], .ok (some 0)) ∧
    visit 2 (AST.binOp (AST.var "x") Token.div (AST.num 0)) [] =
      ([], .error (.nameError "x")) ∧
    Err.nameError "x" ≠ Err.zeroDivision := by
  refine ⟨by simp [visit], ?_, by decide⟩
  simp [visit, visitBinOp, Token.type, envGet, Option.join]

/-- C3 amended: for every `BinaryOp` node with operator `Div` whose left
operand evaluates successfully to a value and whose right operand then
evaluates to `0`, evaluation fails with the arithmetic error and leaves the
environment unchanged; in particular `"1 / 0"` fails with the arithmetic
error and mutates nothing, and an assignment whose right-hand side divides
by zero stores nothing and leaves the environment unchanged. -/
theorem C3_div_by_zero_amended :
    (∀ (fuel : Nat) (l r : AST) (env env1 : Env) (a : ℚ),
      visit fuel l env = (env1, .ok (some a)) →
      ∀ env2 : Env, visit fuel r env1 = (env2, .ok (some 0)) →
      visit (fuel + 1) (AST.binOp l Token.div r) env = (env, .error .zeroDivision)) ∧
    interpretExpr 100 "1 / 0" = .evalError [] .zeroDivision ∧
    (∀ (fuel : Nat) (x : String) (l r : AST) (env env1 : Env) (a : ℚ),
      visit fuel l env = (env1, .ok (some a)) →
      ∀ env2 : Env, visit fuel r env1 = (env2, .ok (some 0)) →
      visit (fuel + 2) (AST.assign (AST.var x) Token.assign (AST.binOp l Token.div r)) env =
        (env, .error .zeroDivision)) := by
  have key : ∀ (fuel : Nat) (l r : AST) (env env1 : Env) (a : ℚ),
      visit fuel l env = (env1, .ok (some a)) →
      ∀ env2 : Env, visit fuel r env1 = (env2, .ok (some 0)) →
      visit (fuel + 1) (AST.binOp l Token.div r) env = (env, .error .zeroDivision) := by
    intro fuel l r env env1 a h1 env2 h2
    have e1 : env1 = env := visit_value_env_eq fuel l env env1 a h1
    have e2 : env2 = env1 := visit_value_env_eq fuel r env1 env2 0 h2
    subst e1
    subst e2
    simp [visit, visitBinOp, Token.type, h1, h2, applyBin]
  refine ⟨key, ?_, ?_⟩
  · have h : runParseExpr 100 "1 / 0" =
        .ok (AST.binOp (AST.num 1) Token.div (AST.num 0)) := by rfl
    norm_num [interpretExpr, h, visit, visitBinOp, Token.type, applyBin]
  · intro fuel x l r env env1 a h1 env2 h2
    have hb := key fuel l r env env1 a h1 env2 h2
    exact visit_assign_rhs_error (fuel + 1) x Token.assign _ env env .zeroDivision hb

/-- C3 amended, witness: `Num(1) / Num(0)` fails with the arithmetic error
and leaves the (empty) environment unchanged. -/
theorem C3_div_by_zero_amended_witness :
    visit 2 (AST.binOp (AST.num 1) Token.div (AST.num 0)) [] =
      ([], .error .zeroDivision) :=
  C3_div_by_zero_amended.1 1 (AST.num 1) (AST.num 0) [] [] 1 (by simp [visit])
    [] (by simp [visit])

/-- C4: a `VariableRef` whose name has no entry in the environment fails
with the undefined-variable error naming that identifier; a name bound to a
value evaluates to that value, in particular to the value just stored by an
assignment (`envSet`); and `"BEGIN x := y; END."` against an empty
environment fails naming `y`. -/
theorem C4_var_lookup :
    (∀ (fuel : Nat) (env : Env) (name : String),
      envGet env name = none →
      visit (fuel + 1) (AST.var name) env = (env, .error (.nameError name))) ∧
    (∀ (fuel : Nat) (env : Env) (name : String) (v : ℚ),
      envGet env name = some (some v) →
      visit (fuel + 1) (AST.var name) env = (env, .ok (some v))) ∧
    (∀ (fuel : Nat) (env : Env) (name : String) (v : ℚ),
      visit (fuel + 1) (AST.var name) (envSet env name (some v)) =
        (envSet env name (some v), .ok (some v))) ∧
    interpret 100 "BEGIN x := y; END." = .evalError [] (.nameError "y") := by
  refine ⟨?_, ?_, ?_, ?_⟩
  · intro fuel env name h
    simp [visit, h, Option.join]
  · intro fuel env name v h
    simp [visit, h, Option.join]
  · intro fuel env name v
    simp [visit, envGet_envSet_self, Option.join]
  · have h : runParse 100 "BEGIN x := y; END." =
        .ok (AST.compound
          [AST.assign (AST.var "x") Token.assign (AST.var "y"), AST.noOp]) := by rfl
    simp [interpret, h, visit, visitSeq, envGet, Option.join]

/-- C4 witness: looking up `y` in the empty environment fails naming `y`,
and looking it up right after storing `5` returns `5`. -/
theorem C4_var_lookup_witness :
    visit 1 (AST.var "y") [] = ([], .error (.nameError "y")) ∧
    visit 1 (AST.var "y") [("y", some 5)] = ([("y", some 5)], .ok (some 5)) :=
  ⟨C4_var_lookup.1 0 [] "y" rfl, C4_var_lookup.2.1 0 [("y", some 5)] "y" 5 (by simp [envGet])⟩

/-- C5: `-` is parsed left-associatively — `"7 - 3 - 1"` parses with the
previously built `7 - 3` node as the left child of the outer `BinOp`, and
evaluates to `3`, not `5`. -/
theorem C5_left_assoc :
    runParseExpr 100 "7 - 3 - 1" =
      .ok (AST.binOp (AST.binOp (AST.num 7) Token.minus (AST.num 3)) Token.minus
        (AST.num 1)) ∧
    interpretExpr 100 "7 - 3 - 1" = .done [] (some 3) ∧
    interpretExpr 100 "7 - 3 - 1" ≠ .done [] (some 5) := by
  have h : runParseExpr 100 "7 - 3 - 1" =
      .ok (AST.binOp (AST.binOp (AST.num 7) Token.minus (AST.num 3)) Token.minus
        (AST.num 1)) := by rfl
  have he : interpretExpr 100 "7 - 3 - 1" = .done [] (some 3) := by
    norm_num [interpretExpr, h, visit, visitBinOp, Token.type, applyBin]
  refine ⟨h, he, ?_⟩
  rw [he]
  intro hc
  simp only [Outcome.done.injEq, Option.some.injEq] at hc
  norm_num at hc

/-- C6: `*` binds tighter than `+`, and parentheses override that —
`"2 + 3 * 4"` evaluates to `14` and `"(2 + 3) * 4"` to `20`. -/
theorem C6_precedence :
    interpretExpr 100 "2 + 3 * 4" = .done [] (some 14) ∧
    interpretExpr 100 "(2 + 3) * 4" = .done [] (some 20) := by
  constructor
  · have h : runParseExpr 100 "2 + 3 * 4" =
        .ok (AST.binOp (AST.num 2) Token.plus
          (AST.binOp (AST.num 3) Token.mul (AST.num 4))) := by rfl
    norm_num [interpretExpr, h, visit, visitBinOp, Token.type, applyBin]
  · have h : runParseExpr 100 "(2 + 3) * 4" =
        .ok (AST.binOp (AST.binOp (AST.num 2) Token.plus (AST.num 3)) Token.mul
          (AST.num 4)) := by rfl
    norm_num [interpretExpr, h, visit, visitBinOp, Token.type, applyBin]

/-- C7: unary `+`/`-` recurse into `factor`, stacking as nested `UnaryOp`
nodes — `"- - 3"` parses as `UnaryOp(Minus, UnaryOp(Minus, Num(3)))` and
evaluates to `3`, and `"- 3 + - - + 2"` evaluates to `-1`. -/
theorem C7_unary_stacking :
    runParseExpr 100 "- - 3" =
      .ok (AST.unaryOp Token.minus (AST.unaryOp Token.minus (AST.num 3))) ∧
    interpretExpr 100 "- - 3" = .done [] (some 3) ∧
    interpretExpr 100 "- 3 + - - + 2" = .done [] (some (-1)) := by
  refine ⟨by rfl, ?_, ?_⟩
  · have h : runParseExpr 100 "- - 3" =
        .ok (AST.unaryOp Token.minus (AST.unaryOp Token.minus (AST.num 3))) := by rfl
    norm_num +decide [interpretExpr, h, visit, visitUnaryOp, Token.type]
  · have h : runParseExpr 100 "- 3 + - - + 2" =
        .ok (AST.binOp (AST.unaryOp Token.minus (AST.num 3)) Token.plus
          (AST.unaryOp Token.minus (AST.unaryOp Token.minus
            (AST.unaryOp Token.plus (AST.num 2))))) := by rfl
    norm_num +decide [interpretExpr, h, visit, visitBinOp, visitUnaryOp, Token.type, applyBin]

/-- C8: in every lexer state whose cursor has passed the end of the input,
`get_next_token` returns the `EOF` token and leaves the state unchanged, so
every subsequent call keeps returning `EOF` — the exhausted tail is
idempotent. -/
theorem C8_exhausted_eof (l : Lexer) (h : l.text.length ≤ l.pos) :
    getNextToken l = .ok (Token.eof, l) := by
  have hc : l.currentChar = none := currentChar_none_of_exhausted l h
  simp only [getNextToken, skipWhitespace_of_none _ _ hc, hc]

/-- C8 witness: a concrete exhausted state returns `EOF` unchanged. -/
theorem C8_exhausted_eof_witness :
    getNextToken ⟨['a', 'b'], 5⟩ = .ok (Token.eof, ⟨['a', 'b'], 5⟩) :=
  C8_exhausted_eof ⟨['a', 'b'], 5⟩ (by decide)

/-- C9: constructing a `Lexer` on the empty input fails immediately with the
index-out-of-range error of the unguarded `text[0]` read (rather than
producing a lexer), while every non-empty string yields a lexer. -/
theorem C9_empty_init :
    lexerInit "" = .error .indexError ∧
    ∀ s : String, s ≠ "" → ∃ lx, lexerInit s = .ok lx := by
  refine ⟨rfl, ?_⟩
  intro s hs
  match h : s.data with
  | [] => exact absurd (String.ext h) hs
  | c :: cs => exact ⟨⟨c :: cs, 0⟩, by simp [lexerInit, h]⟩

/-- C9 witness: a one-character input yields a lexer. -/
theorem C9_empty_init_witness : ∃ lx, lexerInit "a" = .ok lx :=
  C9_empty_init.2 "a" (by decide)

/-- C10: a semicolon directly before `END` is accepted — after the final
`;`, `statement` takes the empty production and the list ends with a `NoOp`,
so `"BEGIN a := 2; END."` parses into a `Compound` whose last child is
`NoOp`, and visiting `NoOp` has no effect on the environment and returns no
value. -/
theorem C10_semi_before_end :
    runParse 100 "BEGIN a := 2; END." =
      .ok (AST.compound
        [AST.assign (AST.var "a") Token.assign (AST.num 2), AST.noOp]) ∧
    ∀ (fuel : Nat) (env : Env), visit (fuel + 1) AST.noOp env = (env, .ok none) := by
  exact ⟨by rfl, fun fuel env => rfl⟩

end Spi
